import Mathlib

/-!
Shallow embedding of `src/analysis.py` (photo-analysis).

Python floats are modelled as exact rationals, Python `round` as
round-half-to-even on rationals, exceptions as `Except String`,
`dict`/`Counter` as association lists, and the recursive file walk as a
flat list of files (name plus what reading its metadata yields).
String helpers are modelled directly on the character lists underlying
`String` so that they evaluate on concrete inputs.
-/

/-- Python `round(x)`: round half to even (banker's rounding). -/
def pyRound (q : ℚ) : ℤ :=
  let f := ⌊q⌋
  let r := q - (f : ℚ)
  if r < 1/2 then f
  else if 1/2 < r then f + 1
  else if f % 2 = 0 then f else f + 1

/-- Python `round(x, 1)`: round to one decimal place. -/
def roundTo1 (q : ℚ) : ℚ := ((pyRound (10 * q) : ℚ)) / 10

/-- The focal-length clamp of lines 50-54: values below 15 become 15, above 200 become 200. -/
def clampFocal (z : ℤ) : ℤ := if z < 15 then 15 else if z > 200 then 200 else z

/-- An EXIF numeric tag value: a rational numerator/denominator pair or a scalar. -/
inductive ExifVal
  | tuple (num den : ℤ)
  | scalar (x : ℚ)
deriving DecidableEq

/-- The flat tag mapping read from one image, restricted to the five tags the
program consults: `Make`, `Model`, `FocalLengthIn35mmFilm`, `FocalLength`, `FNumber`.
A missing tag is `none` (Python `exif.get` returning `None` or the default). -/
structure RawMetadata where
  make : Option String
  model : Option String
  focalLengthIn35mm : Option ℤ
  focalLength : Option ExifVal
  fNumber : Option ExifVal
deriving DecidableEq

/-- List-of-characters substring test (Python `pat in s`). -/
def isSubChars (pat : List Char) : List Char → Bool
  | [] => pat.isEmpty
  | c :: rest => pat.isPrefixOf (c :: rest) || isSubChars pat rest

/-- Python `pat in s` on strings. -/
def strContains (s pat : String) : Bool := isSubChars pat.data s.data

/-- Python `s.startswith(pat)`. -/
def strStartsWith (s pat : String) : Bool := pat.data.isPrefixOf s.data

/-- Python `s.endswith(pat)`. -/
def strEndsWith (s pat : String) : Bool := pat.data.reverse.isPrefixOf s.data.reverse

/-- Python `s.lower()` (ASCII case folding, as used on file names). -/
def strToLower (s : String) : String := String.mk (s.data.map Char.toLower)

/-- Python `s.strip()`: drop whitespace from both ends. -/
def strTrim (s : String) : String :=
  String.mk (((s.data.dropWhile Char.isWhitespace).reverse.dropWhile
    Char.isWhitespace).reverse)

/-- Lines 25-30: crop factor from the (already stripped) Make and Model strings. -/
def cropFactor (make model : String) : ℚ :=
  if strContains make "Canon" && strContains model "EOS M" then 8/5
  else if strContains make "FUJIFILM" && strContains model "X-T" then 3/2
  else 1

/-- Lines 21-30 applied to a metadata record: strip Make/Model (default empty) and
compute the crop factor. -/
def cropOf (m : RawMetadata) : ℚ :=
  cropFactor (strTrim (m.make.getD "")) (strTrim (m.model.getD ""))

/-- Python truthiness of an optional integer (`not focal` is true for `None` and `0`). -/
def intTruthy : Option ℤ → Bool
  | none => false
  | some n => n != 0

/-- Lines 33-47: the focal-length derivation before the clamp.  Prefers the
non-falsy 35mm-equivalent tag; otherwise converts the raw `FocalLength` tag,
multiplying by the crop factor when it exceeds 1.  A tuple with zero denominator
raises (ZeroDivisionError), modelled as `Except.error`. -/
def focalRaw (cf : ℚ) (m : RawMetadata) : Except String (Option ℤ) :=
  let focal0 := m.focalLengthIn35mm
  if 1 < cf ∧ intTruthy focal0 = false then
    match m.focalLength with
    | some (ExifVal.tuple num den) =>
      if den = 0 then Except.error "division by zero"
      else Except.ok (some (pyRound ((num : ℚ) / (den : ℚ) * cf)))
    | some (ExifVal.scalar x) =>
      Except.ok (if x ≠ 0 then some (pyRound (x * cf)) else focal0)
    | none => Except.ok focal0
  else if intTruthy focal0 = false then
    match m.focalLength with
    | some (ExifVal.tuple num den) =>
      if den = 0 then Except.error "division by zero"
      else Except.ok (some (pyRound ((num : ℚ) / (den : ℚ))))
    | some (ExifVal.scalar x) =>
      Except.ok (if x ≠ 0 then some (pyRound x) else focal0)
    | none => Except.ok focal0
  else Except.ok focal0

/-- Lines 50-54: the clamp is applied only when the derived focal value is truthy
(`if focal:`), so `None` and `0` pass through unchanged. -/
def clampStep (f : Option ℤ) : Option ℤ :=
  if intTruthy f then f.map clampFocal else f

/-- Derived focal length: raw derivation followed by the truthiness-guarded clamp. -/
def focalOf (cf : ℚ) (m : RawMetadata) : Except String (Option ℤ) :=
  match focalRaw cf m with
  | Except.error e => Except.error e
  | Except.ok f => Except.ok (clampStep f)

/-- Lines 57-64: aperture derivation.  A tuple is divided out and multiplied by the
crop factor then rounded to one decimal; a truthy scalar likewise; a falsy scalar
(`0`) is left as-is; a missing tag stays `None`. -/
def apertureOf (cf : ℚ) (m : RawMetadata) : Except String (Option ℚ) :=
  match m.fNumber with
  | some (ExifVal.tuple num den) =>
    if den = 0 then Except.error "division by zero"
    else Except.ok (some (roundTo1 ((num : ℚ) / (den : ℚ) * cf)))
  | some (ExifVal.scalar x) =>
    Except.ok (if x ≠ 0 then some (roundTo1 (x * cf)) else some x)
  | none => Except.ok none

/-- Lines 8-66 on an in-memory tag mapping: crop factor, focal length, aperture,
in source order; any raised error propagates to the enclosing handler. -/
def extractMeta (m : RawMetadata) : Except String (Option ℤ × Option ℚ) :=
  match focalOf (cropOf m) m with
  | Except.error e => Except.error e
  | Except.ok f =>
    match apertureOf (cropOf m) m with
    | Except.error e => Except.error e
    | Except.ok a => Except.ok (f, a)

/-- What reading a file yields: an error while opening/parsing, no EXIF block
(`_getexif()` returned `None`), or a tag mapping. -/
inductive FileData
  | readError (e : String)
  | noExif
  | withExif (m : RawMetadata)
deriving DecidableEq

/-- A file seen by the recursive walk: its (base) name and what reading it yields. -/
structure PhotoFile where
  name : String
  data : FileData
deriving DecidableEq

/-- `extract_focal_and_aperture` at file granularity: the try/except of lines 9-70.
Any error is caught, logged with the file path, and turned into `(None, None)`. -/
def extractFile (path : String) : FileData → (Option ℤ × Option ℚ) × List String
  | FileData.readError e => ((none, none), ["Error reading " ++ path ++ ": " ++ e])
  | FileData.noExif => ((none, none), [])
  | FileData.withExif m =>
    match extractMeta m with
    | Except.ok r => (r, [])
    | Except.error e => ((none, none), ["Error reading " ++ path ++ ": " ++ e])

/-- Python truthiness of an optional rational (`not aperture` is true for `None` and `0.0`). -/
def ratTruthy : Option ℚ → Bool
  | none => false
  | some q => q != 0

/-- Lines 83-85: the pair survives only when both components are truthy
(`if not focal or not aperture: continue`); the recorded Observation. -/
def obsOf : Option ℤ × Option ℚ → Option (ℤ × ℚ)
  | (some f, some a) => if f ≠ 0 ∧ a ≠ 0 then some (f, a) else none
  | _ => none

/-- The Observation recorded for one metadata block: extraction (errors caught)
followed by the truthiness guard. -/
def observationOf (m : RawMetadata) : Option (ℤ × ℚ) :=
  match extractMeta m with
  | Except.ok r => obsOf r
  | Except.error _ => none

/-- Inner `Counter`: aperture value to count, as an association list. -/
abbrev Counter := List (ℚ × ℕ)

/-- `defaultdict(Counter)`: focal length to aperture counter. -/
abbrev FreqTable := List (ℤ × Counter)

/-- `counter[a] += n`, creating the entry at 0 on first use. -/
def counterAdd : Counter → ℚ → ℕ → Counter
  | [], a, n => [(a, n)]
  | (b, c) :: rest, a, n =>
    if b = a then (b, c + n) :: rest else (b, c) :: counterAdd rest a n

/-- `stats[f][a] += n`, creating intermediate entries on first use. -/
def tableAdd : FreqTable → ℤ → ℚ → ℕ → FreqTable
  | [], f, a, n => [(f, [(a, n)])]
  | (g, ctr) :: rest, f, a, n =>
    if g = f then (g, counterAdd ctr a n) :: rest else (g, ctr) :: tableAdd rest f a n

/-- Counter lookup, 0 when absent. -/
def counterGet : Counter → ℚ → ℕ
  | [], _ => 0
  | (b, c) :: rest, a => if b = a then c else counterGet rest a

/-- Table cell lookup, 0 when absent. -/
def tableGet : FreqTable → ℤ → ℚ → ℕ
  | [], _, _ => 0
  | (g, ctr) :: rest, f, a => if g = f then counterGet ctr a else tableGet rest f a

/-- Sum of all counts of a counter. -/
def counterTotal : Counter → ℕ
  | [] => 0
  | (_, c) :: rest => c + counterTotal rest

/-- Sum of all cells of a table. -/
def tableTotal : FreqTable → ℕ
  | [] => 0
  | (_, ctr) :: rest => counterTotal ctr + tableTotal rest

/-- The focal-length keys of a table. -/
def tableKeys (t : FreqTable) : List ℤ := t.map Prod.fst

/-- Line 93: the fixed ordered list of standard aperture buckets. -/
def standardApertures : List ℚ := [7/5, 2, 14/5, 4, 28/5, 8, 11, 16]

/-- Fold of Python `min(..., key=lambda x: abs(x - a))` over the remaining list,
keeping the current best; on an equal key the earlier element is kept. -/
def minByDist (a : ℚ) (best : ℚ) : List ℚ → ℚ
  | [] => best
  | x :: xs => minByDist a (if |x - a| < |best - a| then x else best) xs

/-- Python `min(l, key=lambda x: abs(x - a))` on a nonempty list (the program only
ever applies it to `standardApertures`; the empty case is never reached). -/
def pyMinByDist (a : ℚ) : List ℚ → ℚ
  | [] => 0
  | x :: xs => minByDist a x xs

/-- Lines 100-106: snap a raw aperture onto the standard bucket list. -/
def bucket (a : ℚ) : ℚ :=
  if a < 7/5 then 7/5
  else if a > 16 then 16
  else pyMinByDist a standardApertures

/-- Inner loop of lines 97-107: fold one focal length's counter into the
bucketed accumulator. -/
def bucketCounter (f : ℤ) : FreqTable → Counter → FreqTable
  | acc, [] => acc
  | acc, (a, n) :: rest => bucketCounter f (tableAdd acc f (bucket a) n) rest

/-- Outer loop of lines 96-107 over the focal lengths. -/
def bucketTableGo : FreqTable → FreqTable → FreqTable
  | acc, [] => acc
  | acc, (f, ctr) :: rest => bucketTableGo (bucketCounter f acc ctr) rest

/-- Lines 96-107: the bucketing (normalization) step producing `processed_stats`. -/
def bucketTable (t : FreqTable) : FreqTable := bucketTableGo [] t

/-- Line 85 as an operation on one Observation: `stats[obs.focal][obs.aperture] += 1`. -/
def accumulate (t : FreqTable) (o : ℤ × ℚ) : FreqTable := tableAdd t o.1 o.2 1

/-- Accumulate a list of Observations into a table. -/
def buildTableGo : FreqTable → List (ℤ × ℚ) → FreqTable
  | t, [] => t
  | t, o :: rest => buildTableGo (accumulate t o) rest

/-- Accumulate a list of Observations into an initially empty table. -/
def buildTable (l : List (ℤ × ℚ)) : FreqTable := buildTableGo [] l

/-- Lines 82-85 for one candidate file: extract, apply the truthiness guard,
record the Observation if it survives. -/
def processCandidate (stats : FreqTable) (f : PhotoFile) : FreqTable :=
  match obsOf (extractFile f.name f.data).1 with
  | some ob => tableAdd stats ob.1 ob.2 1
  | none => stats

/-- Lines 77-85 for one file: skip macOS resource-fork shadow names, then filter
on the lower-cased extension, then process. -/
def analyzeStep (stats : FreqTable) (f : PhotoFile) : FreqTable :=
  if strStartsWith f.name "._" then stats
  else if strEndsWith (strToLower f.name) ".jpg" || strEndsWith (strToLower f.name) ".jpeg" then
    processCandidate stats f
  else stats

/-- The loop of `analyze_folder_recursive` over the (flattened) walk. -/
def analyzeGo : FreqTable → List PhotoFile → FreqTable
  | stats, [] => stats
  | stats, f :: rest => analyzeGo (analyzeStep stats f) rest

/-- `analyze_folder_recursive`: fold the walk into an initially empty table. -/
def analyzeFolderRecursive (files : List PhotoFile) : FreqTable :=
  analyzeGo [] files

/-- Candidate-file predicate as the spec states it: the name ends in `.jpg` or
`.jpeg` case-insensitively and does not start with the `._` marker. -/
def isCandidate (name : String) : Bool :=
  (strEndsWith (strToLower name) ".jpg" || strEndsWith (strToLower name) ".jpeg")
    && !(strStartsWith name "._")

/-- The Canon EOS M50 example metadata of the spec: `Make "Canon"`,
`Model "Canon EOS M50"`, `FocalLength (32,1)`, `FNumber (2,1)`, no 35mm tag. -/
def canonMeta : RawMetadata :=
  RawMetadata.mk (some "Canon") (some "Canon EOS M50") none
    (some (ExifVal.tuple 32 1)) (some (ExifVal.tuple 2 1))

/-- The zero-focal counterexample metadata: only `FocalLength (1,4)` present,
so the derived focal length rounds to 0. -/
def cexMeta : RawMetadata := RawMetadata.mk none none none (some (ExifVal.tuple 1 4)) none

/-- Zero-focal metadata that also carries a valid `FNumber (28,10)`. -/
def cex10Meta : RawMetadata :=
  RawMetadata.mk none none none (some (ExifVal.tuple 1 4)) (some (ExifVal.tuple 28 10))

/-- Metadata with only a 35mm-equivalent focal length and no f-number. -/
def m35Meta : RawMetadata := RawMetadata.mk none none (some 50) none none

/-- Metadata with only a scalar raw focal length of 5mm (spec Example 5). -/
def m5Meta : RawMetadata := RawMetadata.mk none none none (some (ExifVal.scalar 5)) none

/-- Metadata whose `FocalLength` tuple has a zero denominator, so extraction
raises ZeroDivisionError. -/
def divErrMeta : RawMetadata := RawMetadata.mk none none none (some (ExifVal.tuple 1 0)) none

/-- The clamp as it acts on a value that already passed the raw derivation:
a value of 0 escapes the truthiness guard and is left unclamped, any other
value is clamped into [15, 200]. -/
def clampTruthy (z : ℤ) : ℤ := if z = 0 then z else clampFocal z

/-- The macOS resource-fork shadow file of spec Example 4. -/
def shadowFile : PhotoFile := PhotoFile.mk "._IMG_0001.JPG" (FileData.withExif canonMeta)

/-- The real image file of spec Example 4, with the same metadata. -/
def realFile : PhotoFile := PhotoFile.mk "IMG_0001.JPG" (FileData.withExif canonMeta)

/-! ## Association-list counting lemmas -/

theorem counterGet_counterAdd (ctr : Counter) (a : ℚ) (n : ℕ) (b : ℚ) :
    counterGet (counterAdd ctr a n) b = counterGet ctr b + (if a = b then n else 0) := by
  induction ctr with
  | nil =>
    simp only [counterAdd, counterGet]
    by_cases h : a = b
    · subst h; simp [counterGet]
    · have hba : ¬ b = a := fun hh => h hh.symm
      simp [counterGet, h, hba]
  | cons p rest ih =>
    obtain ⟨x, c⟩ := p
    simp only [counterAdd]
    by_cases hxa : x = a
    · subst hxa
      simp only [if_pos rfl, counterGet]
      by_cases hxb : x = b
      · subst hxb; simp
      · simp [hxb]
    · rw [if_neg hxa]
      simp only [counterGet]
      by_cases hxb : x = b
      · subst hxb
        have : ¬ a = x := fun hh => hxa hh.symm
        simp [this]
      · simp [hxb, ih]

theorem tableGet_tableAdd (t : FreqTable) (f : ℤ) (a : ℚ) (n : ℕ) (g : ℤ) (b : ℚ) :
    tableGet (tableAdd t f a n) g b = tableGet t g b + (if f = g ∧ a = b then n else 0) := by
  induction t with
  | nil =>
    simp only [tableAdd, tableGet]
    by_cases hf : f = g
    · subst hf
      simp only [if_pos rfl, counterGet, tableGet]
      by_cases ha : a = b
      · simp [ha]
      · have hba : ¬ b = a := fun hh => ha hh.symm
        simp [ha, hba]
    · have hgf : ¬ g = f := fun hh => hf hh.symm
      simp [hf, hgf, tableGet]
  | cons p rest ih =>
    obtain ⟨h0, ctr⟩ := p
    simp only [tableAdd]
    by_cases hh0 : h0 = f
    · subst hh0
      simp only [if_pos rfl, tableGet]
      by_cases hg : h0 = g
      · subst hg
        rw [if_pos rfl, if_pos rfl, counterGet_counterAdd]
        by_cases ha : a = b
        · simp [ha]
        · simp [ha]
      · have hng : ¬ (h0 = g ∧ a = b) := fun hh => hg hh.1
        simp [hg, hng]
    · rw [if_neg hh0]
      simp only [tableGet]
      by_cases hg : h0 = g
      · subst hg
        have : ¬ (f = h0 ∧ a = b) := fun hh => hh0 hh.1.symm
        simp [this]
      · simp [hg, ih]

theorem counterTotal_counterAdd (ctr : Counter) (a : ℚ) (n : ℕ) :
    counterTotal (counterAdd ctr a n) = counterTotal ctr + n := by
  induction ctr with
  | nil => simp [counterAdd, counterTotal]
  | cons p rest ih =>
    obtain ⟨x, c⟩ := p
    simp only [counterAdd]
    by_cases hxa : x = a
    · simp [hxa, counterTotal]; omega
    · simp [hxa, counterTotal, ih]; omega

theorem tableTotal_tableAdd (t : FreqTable) (f : ℤ) (a : ℚ) (n : ℕ) :
    tableTotal (tableAdd t f a n) = tableTotal t + n := by
  induction t with
  | nil => simp [tableAdd, tableTotal, counterTotal]
  | cons p rest ih =>
    obtain ⟨g, ctr⟩ := p
    simp only [tableAdd]
    by_cases hg : g = f
    · simp [hg, tableTotal, counterTotal_counterAdd]; omega
    · simp [hg, tableTotal, ih]; omega

theorem tableKeys_tableAdd (t : FreqTable) (f : ℤ) (a : ℚ) (n : ℕ) :
    ∀ g ∈ tableKeys (tableAdd t f a n), g = f ∨ g ∈ tableKeys t := by
  induction t with
  | nil =>
    intro g hg
    simp [tableAdd, tableKeys] at hg
    exact Or.inl hg
  | cons p rest ih =>
    obtain ⟨h0, ctr⟩ := p
    intro g hg
    simp only [tableAdd] at hg
    by_cases hh0 : h0 = f
    · rw [if_pos hh0] at hg
      simp only [tableKeys, List.map_cons, List.mem_cons] at hg ⊢
      tauto
    · rw [if_neg hh0] at hg
      simp only [tableKeys, List.map_cons, List.mem_cons] at hg ⊢
      rcases hg with hg | hg
      · tauto
      · rcases ih g hg with h | h
        · tauto
        · tauto

theorem tableTotal_bucketCounter (f : ℤ) (ctr : Counter) :
    ∀ acc, tableTotal (bucketCounter f acc ctr) = tableTotal acc + counterTotal ctr := by
  induction ctr with
  | nil => intro acc; simp [bucketCounter, counterTotal]
  | cons p rest ih =>
    obtain ⟨a, n⟩ := p
    intro acc
    simp only [bucketCounter, counterTotal]
    rw [ih, tableTotal_tableAdd]
    omega

theorem tableTotal_bucketTableGo (t : FreqTable) :
    ∀ acc, tableTotal (bucketTableGo acc t) = tableTotal acc + tableTotal t := by
  induction t with
  | nil => intro acc; simp [bucketTableGo, tableTotal]
  | cons p rest ih =>
    obtain ⟨f, ctr⟩ := p
    intro acc
    simp only [bucketTableGo, tableTotal]
    rw [ih, tableTotal_bucketCounter]
    omega

theorem tableGet_buildTableGo (l : List (ℤ × ℚ)) :
    ∀ t f a, tableGet (buildTableGo t l) f a =
      tableGet t f a + l.countP (fun o => decide (o.1 = f ∧ o.2 = a)) := by
  induction l with
  | nil => intro t f a; simp [buildTableGo]
  | cons o rest ih =>
    intro t f a
    simp only [buildTableGo, accumulate]
    rw [ih, tableGet_tableAdd, List.countP_cons]
    by_cases h : o.1 = f ∧ o.2 = a
    · simp [h]; omega
    · simp [h]

theorem analyzeGo_append (l1 l2 : List PhotoFile) :
    ∀ stats, analyzeGo stats (l1 ++ l2) = analyzeGo (analyzeGo stats l1) l2 := by
  induction l1 with
  | nil => intro stats; simp [analyzeGo]
  | cons f rest ih => intro stats; simp only [List.cons_append, analyzeGo]; exact ih _

/-! ## Lemmas about the fold implementing Python min -/

theorem minByDist_cons (a best x : ℚ) (xs : List ℚ) :
    minByDist a best (x :: xs) = minByDist a (if |x - a| < |best - a| then x else best) xs := rfl

theorem minByDist_mem (a : ℚ) (l : List ℚ) :
    ∀ best, minByDist a best l = best ∨ minByDist a best l ∈ l := by
  induction l with
  | nil => intro best; exact Or.inl rfl
  | cons x xs ih =>
    intro best
    rw [minByDist_cons]
    rcases ih (if |x - a| < |best - a| then x else best) with h | h
    · rw [h]
      split
      · exact Or.inr (List.mem_cons_self _ _)
      · exact Or.inl rfl
    · exact Or.inr (List.mem_cons_of_mem _ h)

theorem minByDist_le_best (a : ℚ) (l : List ℚ) :
    ∀ best, |minByDist a best l - a| ≤ |best - a| := by
  induction l with
  | nil => intro best; exact le_refl _
  | cons x xs ih =>
    intro best
    rw [minByDist_cons]
    refine le_trans (ih _) ?_
    split
    · next h => exact le_of_lt h
    · exact le_refl _

theorem minByDist_le_mem (a : ℚ) (l : List ℚ) :
    ∀ best, ∀ y ∈ l, |minByDist a best l - a| ≤ |y - a| := by
  induction l with
  | nil => intro best y hy; cases hy
  | cons x xs ih =>
    intro best y hy
    rw [minByDist_cons]
    rcases List.mem_cons.mp hy with rfl | hy
    · refine le_trans (minByDist_le_best a xs _) ?_
      split
      · exact le_refl _
      · next h => exact le_of_not_lt h
    · exact ih _ y hy

theorem minByDist_tie (a : ℚ) (l : List ℚ) :
    ∀ best, l.Pairwise (fun p q => p ≤ q) → (∀ y ∈ l, best ≤ y) →
      (|minByDist a best l - a| = |best - a| → minByDist a best l = best) ∧
      (∀ y ∈ l, |y - a| = |minByDist a best l - a| → minByDist a best l ≤ y) := by
  induction l with
  | nil =>
    intro best _ _
    refine ⟨fun _ => rfl, fun y hy => ?_⟩
    cases hy
  | cons x xs ih =>
    intro best hp hb
    have hpx : ∀ y ∈ xs, x ≤ y := (List.pairwise_cons.mp hp).1
    have hps : xs.Pairwise (fun p q => p ≤ q) := (List.pairwise_cons.mp hp).2
    have hbx : best ≤ x := hb x (List.mem_cons_self _ _)
    rw [minByDist_cons]
    by_cases hlt : |x - a| < |best - a|
    · rw [if_pos hlt]
      have IH := ih x hps hpx
      constructor
      · intro h
        exact absurd h (ne_of_lt (lt_of_le_of_lt (minByDist_le_best a xs x) hlt))
      · intro y hy hyd
        rcases List.mem_cons.mp hy with rfl | hy
        · rw [IH.1 hyd.symm]
        · exact IH.2 y hy hyd
    · rw [if_neg hlt]
      have hle : |best - a| ≤ |x - a| := le_of_not_lt hlt
      have hbxs : ∀ y ∈ xs, best ≤ y := fun y hy => le_trans hbx (hpx y hy)
      have IH := ih best hps hbxs
      refine ⟨IH.1, ?_⟩
      intro y hy hyd
      rcases List.mem_cons.mp hy with rfl | hy
      · have h1 : |minByDist a best xs - a| ≤ |best - a| := minByDist_le_best a xs best
        have h2 : |minByDist a best xs - a| = |best - a| :=
          le_antisymm h1 (le_of_le_of_eq hle hyd)
        rw [IH.1 h2]
        exact hbx
      · exact IH.2 y hy hyd

/-! ## Extraction helper lemmas -/

theorem extractMeta_eq (m : RawMetadata) (f : Option ℤ) (a : Option ℚ)
    (hf : focalOf (cropOf m) m = Except.ok f) (ha : apertureOf (cropOf m) m = Except.ok a) :
    extractMeta m = Except.ok (f, a) := by
  unfold extractMeta; rw [hf, ha]

theorem extractMeta_ok_focal (m : RawMetadata) (r : Option ℤ × Option ℚ)
    (h : extractMeta m = Except.ok r) : focalOf (cropOf m) m = Except.ok r.1 := by
  unfold extractMeta at h
  cases hf : focalOf (cropOf m) m with
  | error e => rw [hf] at h; cases h
  | ok f =>
    rw [hf] at h
    cases ha : apertureOf (cropOf m) m with
    | error e => rw [ha] at h; cases h
    | ok a =>
      rw [ha] at h
      cases h
      rfl

theorem extractMeta_ok_aperture (m : RawMetadata) (r : Option ℤ × Option ℚ)
    (h : extractMeta m = Except.ok r) : apertureOf (cropOf m) m = Except.ok r.2 := by
  unfold extractMeta at h
  cases hf : focalOf (cropOf m) m with
  | error e => rw [hf] at h; cases h
  | ok f =>
    rw [hf] at h
    cases ha : apertureOf (cropOf m) m with
    | error e => rw [ha] at h; cases h
    | ok a =>
      rw [ha] at h
      cases h
      rfl

theorem focalOf_ok_of_raw (cf : ℚ) (m : RawMetadata) (f : Option ℤ)
    (h : focalRaw cf m = Except.ok f) : focalOf cf m = Except.ok (clampStep f) := by
  unfold focalOf; rw [h]

theorem clampStep_some (z : ℤ) : clampStep (some z) = some (clampTruthy z) := by
  unfold clampStep intTruthy clampTruthy
  by_cases hz : z = 0
  · simp [hz]
  · simp [hz]

theorem clampFocal_range (z : ℤ) : 15 ≤ clampFocal z ∧ clampFocal z ≤ 200 := by
  unfold clampFocal
  split
  · omega
  · split
    · omega
    · next h1 h2 => omega

theorem focalOf_range (cf : ℚ) (m : RawMetadata) (v : ℤ)
    (h : focalOf cf m = Except.ok (some v)) (hv : v ≠ 0) : 15 ≤ v ∧ v ≤ 200 := by
  unfold focalOf at h
  cases hr : focalRaw cf m with
  | error e => rw [hr] at h; cases h
  | ok f =>
    rw [hr] at h
    injection h with h
    cases f with
    | none => simp [clampStep, intTruthy] at h
    | some w =>
      rw [clampStep_some] at h
      injection h with h
      unfold clampTruthy at h
      by_cases hw : w = 0
      · rw [if_pos hw] at h
        exact absurd (h ▸ hw) hv
      · rw [if_neg hw] at h
        exact h ▸ clampFocal_range w

theorem obsOf_some (p : Option ℤ × Option ℚ) (ob : ℤ × ℚ) (h : obsOf p = some ob) :
    p.1 = some ob.1 ∧ p.2 = some ob.2 ∧ ob.1 ≠ 0 ∧ ob.2 ≠ 0 := by
  obtain ⟨pf, pa⟩ := p
  cases pf with
  | none => simp [obsOf] at h
  | some f =>
    cases pa with
    | none => simp [obsOf] at h
    | some a =>
      simp only [obsOf] at h
      by_cases hc : f ≠ 0 ∧ a ≠ 0
      · rw [if_pos hc] at h
        cases h
        exact ⟨rfl, rfl, hc.1, hc.2⟩
      · rw [if_neg hc] at h
        cases h

theorem observationOf_range (m : RawMetadata) (ob : ℤ × ℚ)
    (h : observationOf m = some ob) : 15 ≤ ob.1 ∧ ob.1 ≤ 200 := by
  unfold observationOf at h
  cases hE : extractMeta m with
  | error e => rw [hE] at h; cases h
  | ok r =>
    rw [hE] at h
    obtain ⟨h1, _, hnz, _⟩ := obsOf_some r ob h
    have hf := extractMeta_ok_focal m r hE
    rw [h1] at hf
    exact focalOf_range (cropOf m) m ob.1 hf hnz

theorem extractFile_obs (path : String) (d : FileData) (ob : ℤ × ℚ)
    (h : obsOf (extractFile path d).1 = some ob) :
    ∃ m, d = FileData.withExif m ∧ observationOf m = some ob := by
  cases d with
  | readError e => simp [extractFile, obsOf] at h
  | noExif => simp [extractFile, obsOf] at h
  | withExif m =>
    refine ⟨m, rfl, ?_⟩
    unfold observationOf
    cases hE : extractMeta m with
    | error e => rw [extractFile, hE] at h; simp [obsOf] at h
    | ok r => rw [extractFile, hE] at h; exact h

/-! ## Concrete evaluations used by the examples and witnesses -/

theorem crop_canon : cropOf canonMeta = 8/5 := by
  have h : (strContains (strTrim "Canon") "Canon"
      && strContains (strTrim "Canon EOS M50") "EOS M") = true := by decide
  simp [cropOf, canonMeta, cropFactor, h]

theorem focal_canon : focalOf (cropOf canonMeta) canonMeta = Except.ok (some 51) := by
  rw [crop_canon]
  have hp : pyRound (256/5) = 51 := by norm_num [pyRound]
  norm_num [focalOf, focalRaw, canonMeta, intTruthy, clampStep, clampFocal, hp]

theorem aperture_canon : apertureOf (cropOf canonMeta) canonMeta = Except.ok (some (16/5)) := by
  rw [crop_canon]
  have hp : roundTo1 (16/5) = 16/5 := by norm_num [roundTo1, pyRound]
  norm_num [apertureOf, canonMeta, hp]

theorem extract_canon : extractMeta canonMeta = Except.ok (some 51, some (16/5)) :=
  extractMeta_eq canonMeta (some 51) (some (16/5)) focal_canon aperture_canon

theorem obs_canon : observationOf canonMeta = some (51, 16/5) := by
  rw [observationOf, extract_canon]
  norm_num [obsOf]

theorem crop_empty (m : RawMetadata) (h1 : m.make = none) (h2 : m.model = none) :
    cropOf m = 1 := by
  have hc1 : (strContains (strTrim "") "Canon" && strContains (strTrim "") "EOS M") = false := by
    decide
  have hc2 : (strContains (strTrim "") "FUJIFILM" && strContains (strTrim "") "X-T") = false := by
    decide
  simp [cropOf, h1, h2, cropFactor, hc1, hc2]

theorem extract_cex : extractMeta cexMeta = Except.ok (some 0, none) := by
  have hc : cropOf cexMeta = 1 := crop_empty cexMeta rfl rfl
  refine extractMeta_eq cexMeta (some 0) none ?_ ?_
  · rw [hc]
    have hp : pyRound (1/4) = 0 := by norm_num [pyRound]
    norm_num [focalOf, focalRaw, cexMeta, intTruthy, clampStep, clampFocal, hp]
  · rw [hc]
    norm_num [apertureOf, cexMeta]

theorem extract_cex10 : extractMeta cex10Meta = Except.ok (some 0, some (14/5)) := by
  have hc : cropOf cex10Meta = 1 := crop_empty cex10Meta rfl rfl
  refine extractMeta_eq cex10Meta (some 0) (some (14/5)) ?_ ?_
  · rw [hc]
    have hp : pyRound (1/4) = 0 := by norm_num [pyRound]
    norm_num [focalOf, focalRaw, cex10Meta, intTruthy, clampStep, clampFocal, hp]
  · rw [hc]
    have hp : roundTo1 (14/5) = 14/5 := by norm_num [roundTo1, pyRound]
    norm_num [apertureOf, cex10Meta, hp]

theorem extract_m35 : extractMeta m35Meta = Except.ok (some 50, none) := by
  refine extractMeta_eq m35Meta (some 50) none ?_ ?_
  · norm_num [focalOf, focalRaw, m35Meta, intTruthy, clampStep, clampFocal]
  · norm_num [apertureOf, m35Meta]

theorem bucket_32 : bucket (16/5) = 14/5 := by
  norm_num [bucket, pyMinByDist, standardApertures, minByDist, abs]

theorem analyze_pair :
    analyzeFolderRecursive [shadowFile, realFile] = analyzeFolderRecursive [realFile] := by
  have hs : strStartsWith "._IMG_0001.JPG" "._" = true := by decide
  simp [analyzeFolderRecursive, analyzeGo, analyzeStep, shadowFile, hs]

theorem analyze_real : analyzeFolderRecursive [realFile] = [(51, [(16/5, 1)])] := by
  have hs : strStartsWith "IMG_0001.JPG" "._" = false := by decide
  have he : strEndsWith (strToLower "IMG_0001.JPG") ".jpg" = true := by decide
  simp [analyzeFolderRecursive, analyzeGo, analyzeStep, realFile, hs, he,
    processCandidate, extractFile, extract_canon, obsOf, tableAdd]

/-! ## Remaining helper lemmas -/

theorem analyzeStep_readError (stats : FreqTable) (name e : String) :
    analyzeStep stats (PhotoFile.mk name (FileData.readError e)) = stats := by
  unfold analyzeStep
  split
  · rfl
  · split
    · simp [processCandidate, extractFile, obsOf]
    · rfl

theorem extract_divErr : extractMeta divErrMeta = Except.error "division by zero" := by
  have hc : cropOf divErrMeta = 1 := crop_empty divErrMeta rfl rfl
  unfold extractMeta
  rw [hc]
  have hraw : focalRaw 1 divErrMeta = Except.error "division by zero" := by
    simp only [focalRaw, divErrMeta]
    norm_num [intTruthy]
  unfold focalOf
  rw [hraw]

/-! ## Claims -/

/-- Claim C1: the bucketing (normalization) step preserves the total count:
the sum over all cells of the bucketed table equals the sum over all cells of
the input frequency table, so no observation is dropped or double-counted when
several raw apertures collapse into one bucket. -/
theorem c1_normalization_preserves_total (t : FreqTable) :
    tableTotal (bucketTable t) = tableTotal t := by
  unfold bucketTable
  rw [tableTotal_bucketTableGo]
  simp [tableTotal]

/-- Claim C7: a per-file read/parse error is caught at file granularity, logged
with the file path, treated as an absent pair, skipped by the aggregation step,
and removing such a file from the walk does not change the resulting table, so
no per-file error aborts the scan. -/
theorem c7_per_file_errors_contained :
    (∀ path e, extractFile path (FileData.readError e) =
        ((none, none), ["Error reading " ++ path ++ ": " ++ e])) ∧
    (∀ path m e, extractMeta m = Except.error e →
      extractFile path (FileData.withExif m) =
        ((none, none), ["Error reading " ++ path ++ ": " ++ e])) ∧
    (∀ stats name e, analyzeStep stats (PhotoFile.mk name (FileData.readError e)) = stats) ∧
    (∀ l1 l2 name e,
      analyzeFolderRecursive (l1 ++ PhotoFile.mk name (FileData.readError e) :: l2) =
        analyzeFolderRecursive (l1 ++ l2)) := by
  refine ⟨fun path e => rfl, ?_, analyzeStep_readError, ?_⟩
  · intro path m e hE
    simp only [extractFile]
    rw [hE]
  · intro l1 l2 name e
    unfold analyzeFolderRecursive
    rw [analyzeGo_append, analyzeGo_append]
    simp only [analyzeGo]
    rw [analyzeStep_readError]

/-- Witness for C7 at a concrete file whose metadata raises ZeroDivisionError. -/
theorem c7_witness :
    extractFile "a.jpg" (FileData.withExif divErrMeta) =
      ((none, none), ["Error reading " ++ "a.jpg" ++ ": " ++ "division by zero"]) :=
  c7_per_file_errors_contained.2.1 "a.jpg" divErrMeta "division by zero" extract_divErr

/-- Claim C8: accumulating a multiset of Observations into an initially empty
frequency table gives the same table (as a mapping from cells to counts) for
every permutation of the observations. -/
theorem c8_aggregation_order_independent (l1 l2 : List (ℤ × ℚ)) (hp : l1.Perm l2) :
    ∀ f a, tableGet (buildTable l1) f a = tableGet (buildTable l2) f a := by
  intro f a
  unfold buildTable
  rw [tableGet_buildTableGo, tableGet_buildTableGo, hp.countP_eq]

/-- Witness for C8 on a concrete two-element permutation. -/
theorem c8_witness :
    ([((50 : ℤ), (14/5 : ℚ)), (35, 2)].Perm [((35 : ℤ), (2 : ℚ)), (50, 14/5)]) ∧
    tableGet (buildTable [((50 : ℤ), (14/5 : ℚ)), (35, 2)]) 50 (14/5) =
      tableGet (buildTable [((35 : ℤ), (2 : ℚ)), (50, 14/5)]) 50 (14/5) := by
  have hp : ([((50 : ℤ), (14/5 : ℚ)), (35, 2)].Perm [((35 : ℤ), (2 : ℚ)), (50, 14/5)]) :=
    List.Perm.swap _ _ _
  exact ⟨hp, c8_aggregation_order_independent _ _ hp 50 (14/5)⟩

/-- Claim C2: every raw aperture maps to exactly one standard bucket: values
below or at 1.4 map to 1.4, values at or above 16 map to 16, and in between the
chosen bucket minimizes the absolute distance to the raw value, with exact ties
resolved to the bucket occurring first (the smaller one) in the fixed list. -/
theorem c2_bucket_mapping (a : ℚ) :
    bucket a ∈ standardApertures ∧
    (a ≤ 7/5 → bucket a = 7/5) ∧
    (16 ≤ a → bucket a = 16) ∧
    (7/5 < a → a < 16 →
      (∀ b ∈ standardApertures, |bucket a - a| ≤ |b - a|) ∧
      (∀ b ∈ standardApertures, |b - a| = |bucket a - a| → bucket a ≤ b)) := by
  by_cases h1 : a < 7/5
  · have hb : bucket a = 7/5 := by unfold bucket; rw [if_pos h1]
    refine ⟨?_, fun _ => hb, fun h => absurd h (by linarith), fun h _ => absurd h (by linarith)⟩
    rw [hb]
    unfold standardApertures
    exact List.mem_cons_self _ _
  · by_cases h2 : a > 16
    · have hb : bucket a = 16 := by unfold bucket; rw [if_neg h1, if_pos h2]
      refine ⟨?_, fun h => absurd h (by linarith), fun _ => hb,
        fun _ h => absurd h (by linarith)⟩
      rw [hb]
      unfold standardApertures
      norm_num
    · have hb : bucket a = minByDist a (7/5) [2, 14/5, 4, 28/5, 8, 11, 16] := by
        unfold bucket
        rw [if_neg h1, if_neg h2]
        rfl
      have hmem : bucket a ∈ standardApertures := by
        rw [hb]
        unfold standardApertures
        rcases minByDist_mem a [2, 14/5, 4, 28/5, 8, 11, 16] (7/5) with h | h
        · rw [h]; exact List.mem_cons_self _ _
        · exact List.mem_cons_of_mem _ h
      refine ⟨hmem, ?_, ?_, ?_⟩
      · intro h3
        have ha : a = 7/5 := le_antisymm h3 (le_of_not_lt h1)
        rw [hb, ha]
        have h0 := minByDist_le_best (7/5 : ℚ) [2, 14/5, 4, 28/5, 8, 11, 16] (7/5)
        exact sub_eq_zero.mp (abs_nonpos_iff.mp (le_trans h0 (by norm_num)))
      · intro h3
        have ha : a = 16 := le_antisymm (le_of_not_lt h2) h3
        rw [hb, ha]
        have hm : (16 : ℚ) ∈ ([2, 14/5, 4, 28/5, 8, 11, 16] : List ℚ) := by simp
        have h0 := minByDist_le_mem (16 : ℚ) [2, 14/5, 4, 28/5, 8, 11, 16] (7/5) 16 hm
        exact sub_eq_zero.mp (abs_nonpos_iff.mp (le_trans h0 (by norm_num)))
      · intro h3 h4
        have hPW : ([2, 14/5, 4, 28/5, 8, 11, 16] : List ℚ).Pairwise (fun p q => p ≤ q) := by
          norm_num
        have hBD : ∀ y ∈ ([2, 14/5, 4, 28/5, 8, 11, 16] : List ℚ), (7/5 : ℚ) ≤ y := by
          norm_num
        have htie := minByDist_tie a [2, 14/5, 4, 28/5, 8, 11, 16] (7/5) hPW hBD
        constructor
        · intro b hbm
          unfold standardApertures at hbm
          rcases List.mem_cons.mp hbm with rfl | hbt
          · rw [hb]
            exact minByDist_le_best a _ _
          · rw [hb]
            exact minByDist_le_mem a _ _ b hbt
        · intro b hbm hbd
          rw [hb] at hbd ⊢
          unfold standardApertures at hbm
          rcases List.mem_cons.mp hbm with rfl | hbt
          · rw [htie.1 hbd.symm]
          · exact htie.2 b hbt hbd

/-- Witness for C2 at the concrete aperture 1. -/
theorem c2_witness : bucket 1 = 7/5 := (c2_bucket_mapping 1).2.1 (by norm_num)

/-- Claim C3: an Observation is recorded only when both a focal length and an
aperture were derived (and are truthy); if either component is missing the whole
result is absent, and an extraction error also yields an absent result — the
pipeline never records a partial Observation. -/
theorem c3_observation_all_or_nothing (m : RawMetadata) :
    (∀ ob, observationOf m = some ob →
      ∃ r, extractMeta m = Except.ok r ∧
        r.1 = some ob.1 ∧ r.2 = some ob.2 ∧ ob.1 ≠ 0 ∧ ob.2 ≠ 0) ∧
    (∀ r, extractMeta m = Except.ok r → r.1 = none ∨ r.2 = none →
      observationOf m = none) ∧
    (∀ e, extractMeta m = Except.error e → observationOf m = none) := by
  refine ⟨?_, ?_, ?_⟩
  · intro ob h
    unfold observationOf at h
    cases hE : extractMeta m with
    | error e => rw [hE] at h; cases h
    | ok r =>
      rw [hE] at h
      obtain ⟨h1, h2, h3, h4⟩ := obsOf_some r ob h
      exact ⟨r, rfl, h1, h2, h3, h4⟩
  · intro r hE hnone
    unfold observationOf
    rw [hE]
    obtain ⟨rf, ra⟩ := r
    rcases hnone with h | h
    · have hrf : rf = none := h
      rw [hrf]
      cases ra with
      | none => rfl
      | some a => rfl
    · have hra : ra = none := h
      rw [hra]
      cases rf with
      | none => rfl
      | some f => rfl
  · intro e hE
    unfold observationOf
    rw [hE]

/-- Witness for C3: metadata with a focal length but no f-number yields an
absent Observation. -/
theorem c3_witness : observationOf m35Meta = none :=
  (c3_observation_all_or_nothing m35Meta).2.1 (some 50, none) extract_m35 (Or.inr rfl)

/-- Claim C5: the crop factor is 8/5 exactly when Make contains "Canon" and
Model contains "EOS M"; otherwise 3/2 exactly when Make contains "FUJIFILM" and
Model contains "X-T"; and 1 in every remaining case. -/
theorem c5_crop_factor (make model : String) :
    (cropFactor make model = 8/5 ↔
      (strContains make "Canon" = true ∧ strContains model "EOS M" = true)) ∧
    (cropFactor make model = 3/2 ↔
      (¬(strContains make "Canon" = true ∧ strContains model "EOS M" = true) ∧
        strContains make "FUJIFILM" = true ∧ strContains model "X-T" = true)) ∧
    (cropFactor make model = 1 ↔
      (¬(strContains make "Canon" = true ∧ strContains model "EOS M" = true) ∧
        ¬(strContains make "FUJIFILM" = true ∧ strContains model "X-T" = true))) := by
  unfold cropFactor
  by_cases h1 : (strContains make "Canon" && strContains model "EOS M") = true
  · rw [if_pos h1]
    rw [Bool.and_eq_true] at h1
    norm_num [h1.1, h1.2]
  · rw [if_neg h1]
    rw [Bool.and_eq_true] at h1
    by_cases h2 : (strContains make "FUJIFILM" && strContains model "X-T") = true
    · rw [if_pos h2]
      rw [Bool.and_eq_true] at h2
      norm_num [h1, h2.1, h2.2]
    · rw [if_neg h2]
      rw [Bool.and_eq_true] at h2
      norm_num [h1, h2]

/-- Witness for C5: the Canon EOS M50 strings give crop factor 8/5. -/
theorem c5_witness : cropFactor "Canon" "Canon EOS M50" = 8/5 :=
  (c5_crop_factor "Canon" "Canon EOS M50").1.mpr ⟨by decide, by decide⟩

/-- Claim C6: the derived aperture is the f-number tag value (quotient of a
tuple, or a scalar) multiplied by the same crop factor used for the focal
length and rounded to one decimal; a missing f-number tag makes the Observation
absent; and the spec's Canon EOS M50 example yields Observation (51, 3.2),
whose aperture buckets to 2.8. -/
theorem c6_aperture_derivation (m : RawMetadata) :
    (∀ r, extractMeta m = Except.ok r → apertureOf (cropOf m) m = Except.ok r.2) ∧
    (∀ num den, m.fNumber = some (ExifVal.tuple num den) → den ≠ 0 →
      apertureOf (cropOf m) m =
        Except.ok (some (roundTo1 ((num : ℚ) / (den : ℚ) * cropOf m)))) ∧
    (∀ x, m.fNumber = some (ExifVal.scalar x) →
      apertureOf (cropOf m) m = Except.ok (some (roundTo1 (x * cropOf m)))) ∧
    (m.fNumber = none → apertureOf (cropOf m) m = Except.ok none ∧
      observationOf m = none) ∧
    (observationOf canonMeta = some (51, 16/5) ∧ bucket (16/5) = 14/5) := by
  refine ⟨extractMeta_ok_aperture m, ?_, ?_, ?_, obs_canon, bucket_32⟩
  · intro num den hF hden
    unfold apertureOf
    rw [hF]
    dsimp only
    rw [if_neg hden]
  · intro x hF
    unfold apertureOf
    rw [hF]
    dsimp only
    by_cases hx : x = 0
    · rw [if_neg (by simp [hx])]
      have h0 : roundTo1 (x * cropOf m) = x := by
        rw [hx, zero_mul]
        norm_num [roundTo1, pyRound]
      rw [h0]
    · rw [if_pos hx]
  · intro hF
    have hap : apertureOf (cropOf m) m = Except.ok none := by
      unfold apertureOf
      rw [hF]
    refine ⟨hap, ?_⟩
    unfold observationOf
    cases hE : extractMeta m with
    | error e => rfl
    | ok r =>
      have h2 := extractMeta_ok_aperture m r hE
      rw [hap] at h2
      injection h2 with h2
      obtain ⟨rf, ra⟩ := r
      have hra : ra = none := h2.symm
      rw [hra]
      cases rf with
      | none => rfl
      | some f => rfl

/-- Witness for C6: the Canon EOS M50 f-number (2,1) with crop factor 8/5
rounds to aperture 3.2. -/
theorem c6_witness : apertureOf (cropOf canonMeta) canonMeta = Except.ok (some (16/5)) := by
  have h := (c6_aperture_derivation canonMeta).2.1 2 1 rfl (by norm_num)
  rw [h, crop_canon]
  norm_num [roundTo1, pyRound]

/-- Claim C9: a walked file reaches extraction exactly when its name is a
candidate (ends in .jpg/.jpeg case-insensitively and does not start with the
`._` marker); a `._`-prefixed name is skipped unconditionally; and in the
concrete two-file example only `IMG_0001.JPG` contributes its one Observation. -/
theorem c9_candidate_filter :
    (∀ stats f, strStartsWith f.name "._" = true → analyzeStep stats f = stats) ∧
    (∀ stats f, isCandidate f.name = false → analyzeStep stats f = stats) ∧
    (∀ stats f, isCandidate f.name = true → analyzeStep stats f = processCandidate stats f) ∧
    analyzeFolderRecursive [shadowFile, realFile] = analyzeFolderRecursive [realFile] ∧
    tableGet (analyzeFolderRecursive [realFile]) 51 (16/5) = 1 := by
  refine ⟨?_, ?_, ?_, analyze_pair, ?_⟩
  · intro stats f h
    unfold analyzeStep
    rw [if_pos h]
  · intro stats f h
    unfold isCandidate at h
    unfold analyzeStep
    cases hs : strStartsWith f.name "._" with
    | true => simp
    | false =>
      rw [hs] at h
      simp only [Bool.not_false, Bool.and_true] at h
      rw [if_neg (by simp), h, if_neg (by simp)]
  · intro stats f h
    unfold isCandidate at h
    unfold analyzeStep
    cases hs : strStartsWith f.name "._" with
    | true => rw [hs] at h; simp at h
    | false =>
      rw [hs] at h
      simp only [Bool.not_false, Bool.and_true] at h
      rw [if_neg (by simp), if_pos h]
  · rw [analyze_real]
    simp [tableGet, counterGet]

/-- Witness for C9: the resource-fork shadow file is skipped. -/
theorem c9_witness : analyzeStep [] shadowFile = [] :=
  c9_candidate_filter.1 [] shadowFile (by decide)

/-- Claim C10: a derived focal length or aperture that is numerically zero is
treated as absent by the truthiness guard, so no Observation is recorded for
it; consequently every focal-length key of any resulting table lies in
[15, 200]. -/
theorem c10_zero_truthiness_discard :
    (∀ (m : RawMetadata) r, extractMeta m = Except.ok r →
      r.1 = some 0 ∨ r.2 = some 0 → observationOf m = none) ∧
    (∀ files g, g ∈ tableKeys (analyzeFolderRecursive files) → 15 ≤ g ∧ g ≤ 200) := by
  constructor
  · intro m r hE h
    unfold observationOf
    rw [hE]
    obtain ⟨rf, ra⟩ := r
    rcases h with h | h
    · have hrf : rf = some 0 := h
      rw [hrf]
      cases ra with
      | none => rfl
      | some a => simp [obsOf]
    · have hra : ra = some 0 := h
      rw [hra]
      cases rf with
      | none => rfl
      | some f => simp [obsOf]
  · intro files g hg
    have main : ∀ (fs : List PhotoFile) (stats : FreqTable),
        (∀ x ∈ tableKeys stats, 15 ≤ x ∧ x ≤ 200) →
        ∀ x ∈ tableKeys (analyzeGo stats fs), 15 ≤ x ∧ x ≤ 200 := by
      intro fs
      induction fs with
      | nil => intro stats hstats; exact hstats
      | cons f rest ih =>
        intro stats hstats
        refine ih (analyzeStep stats f) ?_
        intro x hx
        unfold analyzeStep at hx
        split at hx
        · exact hstats x hx
        · split at hx
          · unfold processCandidate at hx
            cases hobs : obsOf (extractFile f.name f.data).1 with
            | none =>
              rw [hobs] at hx
              exact hstats x hx
            | some ob =>
              rw [hobs] at hx
              rcases tableKeys_tableAdd stats ob.1 ob.2 1 x hx with h | h
              · obtain ⟨m, _, hm⟩ := extractFile_obs f.name f.data ob hobs
                have hr := observationOf_range m ob hm
                rw [h]
                exact hr
              · exact hstats x h
          · exact hstats x hx
    refine main files [] ?_ g hg
    intro x hx
    cases hx

/-- Witness for C10: metadata whose focal length rounds to 0 (raw (1,4)) and
whose aperture is 2.8 produces no Observation. -/
theorem c10_witness : observationOf cex10Meta = none :=
  c10_zero_truthiness_discard.1 cex10Meta (some 0, some (14/5)) extract_cex10 (Or.inl rfl)

/-- Counterexample to C4 as stated: with only the raw tag `FocalLength (1,4)`
the derived focal length is 0 — returned unclamped, so it does not lie in
[15, 200] as the claim's clamping clause requires. -/
theorem c4_counterexample :
    extractMeta cexMeta = Except.ok (some 0, none) ∧ ¬(15 ≤ (0 : ℤ) ∧ (0 : ℤ) ≤ 200) :=
  ⟨extract_cex, by omega⟩

/-- Claim C4 (amended): the focal-length preference order is as claimed — the
non-zero 35mm-equivalent tag wins and is clamped; otherwise the raw tag is
scaled by the crop factor when it exceeds 1 and rounded, otherwise rounded
directly; absent tags give an absent result — but the clamp into [15, 200]
applies only to nonzero derived values: a derived 0 escapes the truthiness
guard and is returned unclamped. -/
theorem c4_focal_derivation (m : RawMetadata) :
    (∀ v, m.focalLengthIn35mm = some v → v ≠ 0 →
      focalOf (cropOf m) m = Except.ok (some (clampFocal v))) ∧
    (∀ num den, intTruthy m.focalLengthIn35mm = false → 1 < cropOf m →
      m.focalLength = some (ExifVal.tuple num den) → den ≠ 0 →
      focalOf (cropOf m) m =
        Except.ok (some (clampTruthy (pyRound ((num : ℚ) / (den : ℚ) * cropOf m))))) ∧
    (∀ x, intTruthy m.focalLengthIn35mm = false → 1 < cropOf m →
      m.focalLength = some (ExifVal.scalar x) → x ≠ 0 →
      focalOf (cropOf m) m = Except.ok (some (clampTruthy (pyRound (x * cropOf m))))) ∧
    (∀ num den, intTruthy m.focalLengthIn35mm = false → ¬(1 < cropOf m) →
      m.focalLength = some (ExifVal.tuple num den) → den ≠ 0 →
      focalOf (cropOf m) m =
        Except.ok (some (clampTruthy (pyRound ((num : ℚ) / (den : ℚ)))))) ∧
    (∀ x, intTruthy m.focalLengthIn35mm = false → ¬(1 < cropOf m) →
      m.focalLength = some (ExifVal.scalar x) → x ≠ 0 →
      focalOf (cropOf m) m = Except.ok (some (clampTruthy (pyRound x)))) ∧
    (m.focalLengthIn35mm = none → m.focalLength = none →
      focalOf (cropOf m) m = Except.ok none) ∧
    (∀ v, focalOf (cropOf m) m = Except.ok (some v) → v ≠ 0 → 15 ≤ v ∧ v ≤ 200) := by
  refine ⟨?_, ?_, ?_, ?_, ?_, ?_, fun v h hv => focalOf_range (cropOf m) m v h hv⟩
  · intro v h35 hv
    have ht : intTruthy m.focalLengthIn35mm = true := by
      rw [h35]; simp [intTruthy, hv]
    have hraw : focalRaw (cropOf m) m = Except.ok m.focalLengthIn35mm := by
      simp only [focalRaw]
      rw [if_neg (by simp [ht]), if_neg (by simp [ht])]
    rw [h35] at hraw
    rw [focalOf_ok_of_raw _ _ _ hraw, clampStep_some]
    unfold clampTruthy
    rw [if_neg hv]
  · intro num den h35 hcf hFL hden
    have hraw : focalRaw (cropOf m) m =
        Except.ok (some (pyRound ((num : ℚ) / (den : ℚ) * cropOf m))) := by
      simp only [focalRaw]
      rw [if_pos ⟨hcf, h35⟩, hFL]
      dsimp only
      rw [if_neg hden]
    rw [focalOf_ok_of_raw _ _ _ hraw, clampStep_some]
  · intro x h35 hcf hFL hx
    have hraw : focalRaw (cropOf m) m = Except.ok (some (pyRound (x * cropOf m))) := by
      simp only [focalRaw]
      rw [if_pos ⟨hcf, h35⟩, hFL]
      dsimp only
      rw [if_pos hx]
    rw [focalOf_ok_of_raw _ _ _ hraw, clampStep_some]
  · intro num den h35 hcf hFL hden
    have hraw : focalRaw (cropOf m) m =
        Except.ok (some (pyRound ((num : ℚ) / (den : ℚ)))) := by
      simp only [focalRaw]
      rw [if_neg (fun hc => hcf hc.1), if_pos h35, hFL]
      dsimp only
      rw [if_neg hden]
    rw [focalOf_ok_of_raw _ _ _ hraw, clampStep_some]
  · intro x h35 hcf hFL hx
    have hraw : focalRaw (cropOf m) m = Except.ok (some (pyRound x)) := by
      simp only [focalRaw]
      rw [if_neg (fun hc => hcf hc.1), if_pos h35, hFL]
      dsimp only
      rw [if_pos hx]
    rw [focalOf_ok_of_raw _ _ _ hraw, clampStep_some]
  · intro h35 hFL
    have ht : intTruthy m.focalLengthIn35mm = false := by rw [h35]; rfl
    have hraw : focalRaw (cropOf m) m = Except.ok none := by
      simp only [focalRaw]
      by_cases hcf : 1 < cropOf m
      · rw [if_pos ⟨hcf, ht⟩, hFL]
        dsimp only
        rw [h35]
      · rw [if_neg (fun hc => hcf hc.1), if_pos ht, hFL]
        dsimp only
        rw [h35]
    rw [focalOf_ok_of_raw _ _ _ hraw]
    rfl

/-- Witness for C4 (amended) at spec Example 5: a raw scalar focal length of
5mm with no crop correction is clamped up to 15. -/
theorem c4_witness : focalOf (cropOf m5Meta) m5Meta = Except.ok (some 15) := by
  have hcf : cropOf m5Meta = 1 := crop_empty m5Meta rfl rfl
  have h := (c4_focal_derivation m5Meta).2.2.2.2.1 5 rfl (by rw [hcf]; norm_num) rfl
    (by norm_num)
  rw [h]
  have hp : pyRound 5 = 5 := by norm_num [pyRound]
  rw [hp]
  norm_num [clampTruthy, clampFocal]
